import Mathlib

/-!
# Verification of the slog rotating-file logger

Shallow embedding of the rotation-policy time math (`rotatefile/config.go`),
the backup-file utilities (`rotatefile` compress / directory scan / sort
comparator), and the record data-map operations (`record.go`), together with
theorems settling the specification claims about them.

Go `time.Time` values are modelled as an absolute instant (Unix nanoseconds,
location fixed to UTC); Go `time.Duration` is an `Int` count of nanoseconds;
Go machine integers are modelled as unbounded `Int` (the quantities involved
in the rotation math are far below the `int64` range, so overflow branches of
the Go library code are unreachable and omitted where noted).
-/

namespace Slog

/-- Go `time.Time`, reduced to the absolute instant it denotes: Unix
nanoseconds.  The location is fixed to UTC, so calendar components
(day / hour / minute boundaries) are derived arithmetically from the
Unix time. -/
structure GoTime where
  unixNano : Int
deriving DecidableEq, Repr

namespace GoTime

/-- `time.Unix(sec, 0)`: instant at a whole Unix second. -/
def ofUnixSec (s : Int) : GoTime := ⟨s * 1000000000⟩

/-- Go `Time.Unix()`: whole Unix seconds, the floor of the nanosecond
instant (Go stores `sec` plus `nsec ∈ [0, 1e9)`, so the second is the
floor of the nanosecond count; `Int` `/` is Euclidean, which floors for
the positive divisor). -/
def Unix (t : GoTime) : Int := t.unixNano / 1000000000

/-- Go `Time.Minute()` in UTC: minute-of-hour, in `[0, 59]`. -/
def Minute (t : GoTime) : Int := t.Unix % 3600 / 60

/-- Go `Time.Add(d)` for a duration `d` in nanoseconds. -/
def Add (t : GoTime) (d : Int) : GoTime := ⟨t.unixNano + d⟩

end GoTime

/-- `timex.HourStart(t)` from gookit/goutil: `t` truncated to the start of
its clock hour (minute, second and nanosecond zeroed, in `t`'s location,
here UTC). -/
def HourStart (t : GoTime) : GoTime :=
  GoTime.ofUnixSec (t.Unix - t.Unix % 3600)

/-- Unix second of the start of `t`'s calendar day (UTC), as used by
`timex.DayStart`/`timex.DayEnd` from gookit/goutil. -/
def dayStartSec (t : GoTime) : Int := t.Unix - t.Unix % 86400

/-- `timex.DayEnd(t)` from gookit/goutil: 23:59:59.999999999 of `t`'s
calendar day (`time.Date(y, m, d, 23, 59, 59, 1e9-1, loc)`). -/
def DayEnd (t : GoTime) : GoTime :=
  ⟨(dayStartSec t + 86399) * 1000000000 + 999999999⟩

/-- `timex.OneHour = time.Hour`: one hour as a Go duration (nanoseconds). -/
def OneHour : Int := 3600 * 1000000000

/-- Go `time.Duration.Round(m)`: round `d` to the nearest multiple of `m`,
halfway values away from zero.  `%` on Go int64 is truncated division
remainder, modelled by `Int.tmod`.  The `int64` overflow guards of the Go
implementation are omitted: all durations this development applies it to
are below one minute in nanoseconds. -/
def durRound (d m : Int) : Int :=
  if m ≤ 0 then d
  else
    let r := d.tmod m
    if d < 0 then
      let r2 := -r
      if r2 + r2 < m then d + r2 else d - (m - r2)
    else
      if r + r < m then d - r else d + (m - r)

namespace Rotatefile

/-- `rotateLevel` from `rotatefile/config.go`: the four time-rotation
granularities. -/
inductive rotateLevel where
  | levelDay
  | levelHour
  | levelMin
  | levelSec
deriving DecidableEq, Repr

open rotateLevel

/-- `RotateTime` from `rotatefile/config.go`: a rotation interval in whole
seconds (Go `int`). -/
abbrev RotateTime := Int

/-- `EveryDay` preset: `timex.OneDaySec` = 86400 seconds. -/
def EveryDay : RotateTime := 86400

/-- `EveryHour` preset: `timex.OneHourSec` = 3600 seconds. -/
def EveryHour : RotateTime := 3600

/-- `Every30Min` preset: 1800 seconds. -/
def Every30Min : RotateTime := 1800

/-- `Every15Min` preset: 900 seconds. -/
def Every15Min : RotateTime := 900

/-- `EveryMinute` preset: `timex.OneMinSec` = 60 seconds. -/
def EveryMinute : RotateTime := 60

/-- `EverySecond` preset: 1 second. -/
def EverySecond : RotateTime := 1

/-- `RotateTime.Interval` from `rotatefile/config.go`: the interval in
seconds as `int64`. -/
def Interval (rt : Int) : Int := rt

/-- `RotateTime.level` from `rotatefile/config.go`: classify the interval
magnitude into a granularity (`≥ OneDaySec` day, `≥ OneHourSec` hour,
`≥ EveryMinute` minute, otherwise second). -/
def level (rt : Int) : rotateLevel :=
  if 86400 ≤ rt then levelDay
  else if 3600 ≤ rt then levelHour
  else if 60 ≤ rt then levelMin
  else levelSec

/-- `RotateTime.FirstCheckTime` from `rotatefile/config.go`: the Unix second
of the next rotation deadline for the clock reading `now`.
Day level: `timex.DayEnd(now).Unix()`.
Hour level: `timex.HourStart(now).Add(timex.OneHour).Unix()`.
Minute level: `minutes := int(interval / 60)`; `nextMin := now.Minute() + minutes`;
if `nextMin >= 60` the start of the next hour, otherwise
`HourStart(now).Add(time.Duration(nextMin).Round(time.Duration(minutes))).Unix()`
(note: `time.Duration(nextMin)` is `nextMin` nanoseconds).
Second level: `now.Unix() + interval`. -/
def FirstCheckTime (rt : Int) (now : GoTime) : Int :=
  let interval := Interval rt
  match level rt with
  | levelDay => (DayEnd now).Unix
  | levelHour => ((HourStart now).Add OneHour).Unix
  | levelMin =>
    let minutes : Int := interval.tdiv 60
    let nextMin : Int := now.Minute + minutes
    if 60 ≤ nextMin then
      ((HourStart now).Add OneHour).Unix
    else
      let nextDur : Int := durRound nextMin minutes
      ((HourStart now).Add nextDur).Unix
  | levelSec => now.Unix + interval

/-- `RotateTime.TimeFormat` from `rotatefile/config.go`: the Go layout
string for the backup-filename time suffix, by granularity. -/
def TimeFormat (rt : Int) : String :=
  match level rt with
  | levelDay => "20060102"
  | levelHour => "20060102_1500"
  | levelMin => "20060102_1504"
  | levelSec => "20060102_150405"

end Rotatefile

/-- A plain file in the file-system model: its byte content and its
modification time (an instant, as returned by Go `FileInfo.ModTime`). -/
structure FileData where
  content : List Nat
  modTime : Int
deriving DecidableEq, Repr

/-- The file system visible to the `rotatefile` utilities: an association
of paths to files. -/
abbrev FileSys := List (String × FileData)

/-- Look a path up in the file system (`os.OpenFile` with `O_RDONLY`
succeeds exactly when this is `some`). -/
def lookupFile (fs : FileSys) (p : String) : Option FileData :=
  match fs with
  | [] => none
  | (q, f) :: rest => if q = p then some f else lookupFile rest p

/-- Write a file at a path, replacing an existing entry or creating a
fresh one. -/
def setFile (fs : FileSys) (p : String) (f : FileData) : FileSys :=
  match fs with
  | [] => [(p, f)]
  | (q, g) :: rest => if q = p then (p, f) :: rest else (q, g) :: setFile rest p f

/-- Characters of the final slash-separated component: scan the path,
restarting the accumulator after each `/`. -/
def lastComponent : List Char → List Char → List Char
  | [], acc => acc.reverse
  | c :: rest, acc =>
    if c = '/' then lastComponent rest [] else lastComponent rest (c :: acc)

/-- Base name of a path: the final slash-separated component, as returned
by Go `FileInfo.Name()` for an opened file. -/
def baseName (p : String) : String :=
  String.mk (lastComponent p.data [])

/-- A gzip archive as produced by `compressFile`: the header fields the Go
code sets explicitly (`zw.Name`, `zw.ModTime`) plus the payload, which
round-trips to the source bytes (the DEFLATE bit stream itself is not
modelled). -/
structure GzipArchive where
  name : String
  modTime : Int
  payload : List Nat
deriving DecidableEq, Repr

/-- Serialized bytes of a gzip archive as stored in the destination file:
magic bytes, the header name, a separator, then the payload.  Only used to
give the destination file concrete content; no claim depends on the exact
byte layout. -/
def gzipBytes (ar : GzipArchive) : List Nat :=
  31 :: 139 :: (ar.name.toList.map Char.toNat) ++ 0 :: ar.payload

/-- `compressFile(srcPath, dstPath)` from the `rotatefile` utilities:
open the source read-only (error if absent), create/open the destination
via `fsutil.QuickOpenFile` — which uses `O_CREATE|O_WRONLY|O_APPEND`, so
the gzip stream is *appended* to whatever the destination already holds —
stat the source, set the gzip header `Name` to the source's base name and
`ModTime` to its modification time, and stream the source bytes through
the gzip writer into the destination.  Result: the updated file system
paired with the returned error or the written archive.  In the model,
destination creation, stat and copy succeed whenever the source exists;
the destination's modification time is its last-write instant, fixed at 0
here (no claim reads it).  When `dstPath = srcPath`, the append-mode open
targets the source itself: the model appends the gzip stream of the
source's original bytes (the real interleaving of the reader with the
appending writer may append even more, but under no interleaving does the
source keep its original content). -/
def compressFile (fs : FileSys) (srcPath dstPath : String) :
    FileSys × Except Unit GzipArchive :=
  match lookupFile fs srcPath with
  | none => (fs, Except.error ())
  | some src =>
    let ar : GzipArchive := ⟨baseName srcPath, src.modTime, src.content⟩
    let existing : List Nat :=
      match lookupFile fs dstPath with
      | none => []
      | some dst => dst.content
    (setFile fs dstPath ⟨existing ++ gzipBytes ar, 0⟩, Except.ok ar)

namespace Rotatefile

/-- `fileInfo` from the `rotatefile` utilities: a backup file's full path
plus the embedded `fs.FileInfo` fields the utilities read (base name and
modification time). -/
structure fileInfo where
  name : String
  modTime : Int
  filePath : String
deriving DecidableEq, Repr

/-- Go `t.After(u)` on the modification-time instants: strictly later. -/
def timeAfter (t u : Int) : Bool := decide (u < t)

/-- `modTimeFInfos.Less(i, j)` from the `rotatefile` utilities:
`fis[j].ModTime().After(fis[i].ModTime())`. -/
def modTimeLess (fis : List fileInfo) (i j : Fin fis.length) : Bool :=
  timeAfter (fis.get j).modTime (fis.get i).modTime

/-- Error values of the Go file-system calls made by `findFilesInDir`. -/
inductive GoError where
  | statError
  | openError
  | handleError
deriving DecidableEq, Repr

/-- The observable state of the directory `findFilesInDir` scans: the
result of `os.Stat` (an error, or whether the path is a directory), the
result of `os.Open`, and the entries `Readdir(-1)` returns. -/
structure DirState where
  statRes : Except GoError Bool
  openRes : Except GoError Unit
  entries : List fileInfo

/-- Entry loop of `findFilesInDir`: for each entry, `filePath := dir + name`;
the entry is skipped when some filter rejects it (`filtered`/`continue`),
otherwise `handleFn(filePath, fi)` runs and a handler error aborts the scan
with that error.  Returns the (path, info) pairs the handler was invoked
on, paired with the function's `err` result. -/
def scanEntries (dir : String)
    (handleFn : String → fileInfo → Except GoError Unit)
    (filters : List (String → fileInfo → Bool)) :
    List fileInfo → List (String × fileInfo) × Except GoError Unit
  | [] => ([], Except.ok ())
  | fi :: rest =>
    let filePath := dir ++ fi.name
    if filters.all fun fl => fl filePath fi then
      match handleFn filePath fi with
      | Except.error e => ([(filePath, fi)], Except.error e)
      | Except.ok _ =>
        let r := scanEntries dir handleFn filters rest
        ((filePath, fi) :: r.1, r.2)
    else
      scanEntries dir handleFn filters rest

/-- `findFilesInDir` from the `rotatefile` utilities: stat the directory and
bail out on a stat error or a non-directory; open it and bail out on an open
error; then iterate the entries.  The Go function's result `err` is a
*named return* and the bail-outs are naked `return` statements, so the
stat-error and open-error bail-outs return the error value currently bound
to `err` (the comments say "ignore I/O error", but only the non-directory
bail-out actually returns `nil`).  The first component records the handler
invocations. -/
def findFilesInDir (dir : String) (d : DirState)
    (handleFn : String → fileInfo → Except GoError Unit)
    (filters : List (String → fileInfo → Bool)) :
    List (String × fileInfo) × Except GoError Unit :=
  match d.statRes with
  | Except.error e => ([], Except.error e)
  | Except.ok isDir =>
    if !isDir then ([], Except.ok ())
    else
      match d.openRes with
      | Except.error e => ([], Except.error e)
      | Except.ok _ => scanEntries dir handleFn filters d.entries

end Rotatefile

/-- Go `map[string]any` (`slog.M`), modelled as an association list over an
arbitrary value type; the separate `Option` layer below models the `nil`
map. -/
abbrev M (α : Type) := List (String × α)

/-- Go map assignment `m[k] = v`: replace the binding of `k`, or append a
fresh one. -/
def mapSet {α : Type} (m : M α) (k : String) (v : α) : M α :=
  match m with
  | [] => [(k, v)]
  | (q, w) :: rest => if q = k then (k, v) :: rest else (q, w) :: mapSet rest k v

/-- Go map read `m[k]`: the bound value, if any. -/
def mapGet {α : Type} (m : M α) (k : String) : Option α :=
  match m with
  | [] => none
  | (q, w) :: rest => if q = k then some w else mapGet rest k

/-- `Record` from `record.go`, restricted to its `Data` field — the only
field `Record.AddValue` reads or writes (Time, Level, Message, Fields,
Extra and the rest are carried through unchanged and are omitted from the
model).  `none` models a `nil` map. -/
structure Record (α : Type) where
  Data : Option (M α)
deriving DecidableEq, Repr

/-- `Record.AddValue(key, value)` from `record.go`: when `Data` is `nil`,
allocate a fresh empty map (`make(M, 8)`) and return immediately — without
inserting the entry; otherwise set `Data[key] = value`. -/
def AddValue {α : Type} (r : Record α) (key : String) (value : α) : Record α :=
  match r.Data with
  | none => { Data := some [] }
  | some m => { Data := some (mapSet m key value) }

/-!
## Theorems

One theorem per claim, plus a shared helper lemma about the file-system
model and one witness per hypothesis-bearing claim theorem.
-/

/-- Writing at one path leaves the file at any other path unchanged. -/
theorem lookupFile_setFile_ne (fs : FileSys) (p q : String) (f : FileData)
    (h : p ≠ q) : lookupFile (setFile fs q f) p = lookupFile fs p := by
  induction fs with
  | nil =>
    simp only [setFile, lookupFile]
    rw [if_neg (fun hq => h hq.symm)]
  | cons hd tl ih =>
    obtain ⟨k, g⟩ := hd
    simp only [setFile]
    by_cases hk : k = q
    · rw [if_pos hk]
      simp only [lookupFile]
      rw [if_neg (fun hq => h hq.symm), if_neg (fun hp => h (hk ▸ hp).symm)]
    · rw [if_neg hk]
      simp only [lookupFile]
      by_cases hp : k = p
      · rw [if_pos hp, if_pos hp]
      · rw [if_neg hp, if_neg hp, ih]

namespace Rotatefile

open rotateLevel

/-- C1: refuted on the code.  For the minute granularity the claim demands a
deadline that is at least `now` and lands on a rounded minute within the
hour; the code computes `time.Duration(nextMin).Round(time.Duration(minutes))`
in *nanoseconds* (the `* time.Minute` factor is missing, contradicting the
code's own comment "will get nextDur=40"), so adding it to the hour start
never moves the Unix second.  With a 5-minute interval (`rt = 300`) and
`now` = 15:37:00 UTC of 1970-01-01 (Unix 56220), the computed deadline is
54000 (15:00:00, the start of the *current* hour), which is strictly in the
past instead of at least `now`. -/
theorem firstCheckTime_minute_deadline_in_past :
    FirstCheckTime 300 (GoTime.ofUnixSec 56220) = 54000 ∧
      (54000 : Int) < (GoTime.ofUnixSec 56220).Unix := by
  decide

/-- C2: refuted on the code.  With a 15-minute interval (`rt = 900`) and
`now` = 16:30:00 UTC of 1970-01-01 (Unix 59400), the claim requires the
deadline 16:45:00 (Unix 60300: `now` advanced by the interval and rounded
to a multiple of 15 minutes within the hour); because the rounding is
performed on nanoseconds rather than minutes, the code returns 57600
(16:00:00, the start of the current hour) instead. -/
theorem firstCheckTime_minute_not_rounded_multiple :
    FirstCheckTime 900 (GoTime.ofUnixSec 59400) = 57600 ∧
      (57600 : Int) ≠ 60300 := by
  decide

/-- C3 counterexample: with a day interval (`rt = 86400`) and the clock at
23:59:59 UTC of 1970-01-01 (Unix 86399), the claim requires the start of
the next calendar day (Unix 86400), but `timex.DayEnd(now).Unix()` is the
final second 23:59:59 of the *current* day, Unix 86399. -/
theorem firstCheckTime_day_counterexample :
    FirstCheckTime 86400 (GoTime.ofUnixSec 86399) = 86399 ∧
      (86399 : Int) ≠ 86400 := by
  decide

/-- C3 amended: for every day-granularity interval and every `now`, the
deadline is the Unix second of the *last second* of the current calendar
day, i.e. the start of the next day minus one second. -/
theorem firstCheckTime_day_lastSecond (rt : Int) (now : GoTime)
    (h : 86400 ≤ rt) :
    FirstCheckTime rt now = dayStartSec now + 86400 - 1 := by
  simp only [FirstCheckTime, level, if_pos h]
  simp only [DayEnd, GoTime.Unix, dayStartSec]
  omega

/-- C3 amended, witnessed at `rt = 86400` and `now` = Unix second 1000000. -/
theorem firstCheckTime_day_lastSecond_witness :
    FirstCheckTime 86400 (GoTime.ofUnixSec 1000000) =
      dayStartSec (GoTime.ofUnixSec 1000000) + 86400 - 1 :=
  firstCheckTime_day_lastSecond 86400 (GoTime.ofUnixSec 1000000) (by decide)

/-- C4: the granularity of a rotation interval is determined solely by its
magnitude in seconds: at least 86400 is day level, at least 3600 (and below
86400) hour level, at least 60 (and below 3600) minute level, anything
smaller second level. -/
theorem level_by_magnitude (rt : Int) :
    (86400 ≤ rt → level rt = levelDay) ∧
    (3600 ≤ rt → rt < 86400 → level rt = levelHour) ∧
    (60 ≤ rt → rt < 3600 → level rt = levelMin) ∧
    (rt < 60 → level rt = levelSec) := by
  refine ⟨fun h => ?_, fun h1 h2 => ?_, fun h1 h2 => ?_, fun h => ?_⟩ <;>
    simp only [level] <;> split_ifs <;> first | rfl | omega

/-- C4 witnessed at the four preset interval magnitudes. -/
theorem level_by_magnitude_witness :
    level 86400 = levelDay ∧ level 3600 = levelHour ∧
      level 60 = levelMin ∧ level 1 = levelSec :=
  ⟨(level_by_magnitude 86400).1 (by decide),
   (level_by_magnitude 3600).2.1 (by decide) (by decide),
   (level_by_magnitude 60).2.2.1 (by decide) (by decide),
   (level_by_magnitude 1).2.2.2 (by decide)⟩

/-- C5: the filename-suffix time format matches the granularity: date-only
for day level, date plus hour for hour level, date plus hour and minute for
minute level, full date plus time with seconds for second level. -/
theorem timeFormat_by_level (rt : Int) :
    (level rt = levelDay → TimeFormat rt = "20060102") ∧
    (level rt = levelHour → TimeFormat rt = "20060102_1500") ∧
    (level rt = levelMin → TimeFormat rt = "20060102_1504") ∧
    (level rt = levelSec → TimeFormat rt = "20060102_150405") := by
  refine ⟨fun h => ?_, fun h => ?_, fun h => ?_, fun h => ?_⟩ <;>
    simp only [TimeFormat, h]

/-- C5 witnessed at the four preset interval magnitudes. -/
theorem timeFormat_by_level_witness :
    TimeFormat 86400 = "20060102" ∧ TimeFormat 3600 = "20060102_1500" ∧
      TimeFormat 60 = "20060102_1504" ∧ TimeFormat 1 = "20060102_150405" :=
  ⟨(timeFormat_by_level 86400).1 (by decide),
   (timeFormat_by_level 3600).2.1 (by decide),
   (timeFormat_by_level 60).2.2.1 (by decide),
   (timeFormat_by_level 1).2.2.2 (by decide)⟩

end Rotatefile

/-- C6: when `compressFile` successfully compresses a source file, the
archive's embedded header name equals the source file's base name and the
embedded header modification time equals the source file's modification
time. -/
theorem compressFile_header_preserved (fs : FileSys) (srcPath dstPath : String)
    (src : FileData) (ar : GzipArchive)
    (hsrc : lookupFile fs srcPath = some src)
    (hok : (compressFile fs srcPath dstPath).2 = Except.ok ar) :
    ar.name = baseName srcPath ∧ ar.modTime = src.modTime := by
  simp only [compressFile, hsrc] at hok
  cases hok
  exact ⟨rfl, rfl⟩

/-- C6, witnessed: compressing `logs/error.log` (content "hi", modification
time 42) into `logs/error.log.gz` yields an archive whose header name is
the base name `error.log` and whose header modification time is 42. -/
theorem compressFile_header_preserved_witness :
    (GzipArchive.mk "error.log" 42 [104, 105]).name = baseName "logs/error.log" ∧
      (GzipArchive.mk "error.log" 42 [104, 105]).modTime =
        (FileData.mk [104, 105] 42).modTime :=
  compressFile_header_preserved
    [("logs/error.log", FileData.mk [104, 105] 42)]
    "logs/error.log" "logs/error.log.gz"
    (FileData.mk [104, 105] 42)
    (GzipArchive.mk "error.log" 42 [104, 105])
    (by rfl) (by rfl)

/-- C9 counterexample: the claim quantifies over *every* `srcPath` and
`dstPath`, but when the two paths are equal the destination open
(`O_CREATE|O_WRONLY|O_APPEND`) is the source itself and the gzip stream is
appended to it, so the source's content does not survive the call.
Concretely, compressing `logs/error.log` onto itself changes the file
found at that path. -/
theorem compressFile_same_path_modifies_source :
    lookupFile
        (compressFile [("logs/error.log", FileData.mk [104, 105] 42)]
          "logs/error.log" "logs/error.log").1 "logs/error.log" ≠
      lookupFile [("logs/error.log", FileData.mk [104, 105] 42)]
        "logs/error.log" := by
  decide

/-- C9 amended: `compressFile` never removes or modifies the source file
provided the destination path differs from the source path (which the
caller guarantees: the destination is always the source plus a `.gz`
suffix) — for any file system and any such pair of paths, the file at the
source path after the call (whether the call succeeded or returned an
error) is exactly the file that was there before; removal of the source is
left to the caller. -/
theorem compressFile_source_untouched (fs : FileSys) (srcPath dstPath : String)
    (hne : srcPath ≠ dstPath) :
    lookupFile (compressFile fs srcPath dstPath).1 srcPath = lookupFile fs srcPath := by
  unfold compressFile
  cases h : lookupFile fs srcPath with
  | none => simp [h]
  | some src =>
    simp only [h]
    rw [lookupFile_setFile_ne fs srcPath dstPath _ hne]
    exact h

/-- C9, witnessed: after compressing `logs/error.log` to `logs/error.log.gz`
the source file is still present, unchanged. -/
theorem compressFile_source_untouched_witness :
    lookupFile
        (compressFile [("logs/error.log", FileData.mk [104, 105] 42)]
          "logs/error.log" "logs/error.log.gz").1 "logs/error.log" =
      lookupFile [("logs/error.log", FileData.mk [104, 105] 42)] "logs/error.log" :=
  compressFile_source_untouched
    [("logs/error.log", FileData.mk [104, 105] 42)]
    "logs/error.log" "logs/error.log.gz" (by decide)

namespace Rotatefile

/-- C7: the backup-file comparator orders candidates
oldest-modification-time-first.  `Less i j` holds exactly when the entry at
`i` was modified strictly earlier than the entry at `j`, and any
permutation of the list that the sorting contract leaves (for all `i < j`,
`Less j i` is false) is in non-decreasing modification-time order. -/
theorem modTimeLess_oldest_first (fis : List fileInfo) :
    (∀ i j : Fin fis.length,
        modTimeLess fis i j = true ↔ (fis.get i).modTime < (fis.get j).modTime) ∧
      ((∀ i j : Fin fis.length, i < j → modTimeLess fis j i = false) →
        List.Pairwise (fun a b => a.modTime ≤ b.modTime) fis) := by
  constructor
  · intro i j
    simp [modTimeLess, timeAfter]
  · intro h
    rw [List.pairwise_iff_get]
    intro i j hij
    have hji := h i j hij
    simp only [modTimeLess, timeAfter, decide_eq_false_iff_not, not_lt] at hji
    exact hji

/-- C7, witnessed on a concrete two-element list that satisfies the sorted
contract. -/
theorem modTimeLess_oldest_first_witness :
    List.Pairwise (fun a b => a.modTime ≤ b.modTime)
      [fileInfo.mk "a.log.20220211" 10 "logs/a.log.20220211",
       fileInfo.mk "a.log.20220212" 20 "logs/a.log.20220212"] :=
  (modTimeLess_oldest_first
      [fileInfo.mk "a.log.20220211" 10 "logs/a.log.20220211",
       fileInfo.mk "a.log.20220212" 20 "logs/a.log.20220212"]).2
    (by decide)

/-- C8: refuted on the code in its "without reporting failure" part.  On a
stat error, a non-directory, or an open error the handler is indeed never
invoked (the invocation list is empty), but because `err` is a named
return and the bail-outs are naked `return` statements, the stat-error and
open-error cases return that error to the caller instead of `nil`
(contradicting the code's own "ignore I/O error" comments); only the
non-directory case returns `nil`.  Evaluated here on a directory with one
matching entry and a handler that always succeeds. -/
theorem findFilesInDir_scan_error_surfaced :
    (findFilesInDir "logs/"
        (DirState.mk (Except.error GoError.statError) (Except.ok ())
          [fileInfo.mk "app.log.20201223" 5 "logs/app.log.20201223"])
        (fun _ _ => Except.ok ()) [] =
      ([], Except.error GoError.statError)) ∧
    (findFilesInDir "logs/"
        (DirState.mk (Except.ok false) (Except.ok ())
          [fileInfo.mk "app.log.20201223" 5 "logs/app.log.20201223"])
        (fun _ _ => Except.ok ()) [] =
      ([], Except.ok ())) ∧
    (findFilesInDir "logs/"
        (DirState.mk (Except.ok true) (Except.error GoError.openError)
          [fileInfo.mk "app.log.20201223" 5 "logs/app.log.20201223"])
        (fun _ _ => Except.ok ()) [] =
      ([], Except.error GoError.openError)) ∧
    (Except.error GoError.statError ≠ (Except.ok () : Except GoError Unit)) := by
  refine ⟨rfl, rfl, rfl, ?_⟩
  intro h
  exact Except.noConfusion h

end Rotatefile

/-- C10: refuted on the code.  Starting from a record whose `Data` map is
`nil`, `AddValue("uid", 1)` allocates the map and returns before inserting,
so the resulting `Data` is the empty map and the lookup of `"uid"` fails —
while on a record whose `Data` map already exists the entry is stored as
the claim describes. -/
theorem addValue_nil_data_drops_entry :
    ((AddValue (Record.mk (α := Int) none) "uid" 1).Data = some []) ∧
      (mapGet ([] : M Int) "uid" = none) ∧
      ((AddValue (Record.mk (α := Int) (some [])) "uid" 1).Data =
        some [("uid", 1)]) := by
  refine ⟨rfl, rfl, rfl⟩

end Slog
